import Mathlib

/-!
# Verification of the OpenAPI Schema Explorer resource engine

A shallow embedding of the resource addressing / resolution engine of the
`mcp-openapi-schema-explorer` repository, together with theorems checking the
natural-language specification against it.

Strings that travel through the URI encoding layer are modelled as lists of
Unicode code points (`List Nat`); strings handled by the resolution layer use
Lean's `String`.
-/

namespace OpenApiExplorer

/-! ## Percent-encoding layer (Address Model)

`encodeUriPathComponent` is translated from `src/utils/uri-builder.ts`; the
JavaScript builtins `encodeURIComponent` / `decodeURIComponent` that it calls
are modelled below at the Unicode code-point level (UTF-8 bytes, `%XX`
escapes, uppercase hex, the ECMAScript unreserved set). -/

/-- A Unicode scalar value: what one element of a well-formed
(surrogate-free) JavaScript string denotes. -/
def isScalarValue (c : Nat) : Prop :=
  c < 1114112 ∧ ¬(55296 ≤ c ∧ c ≤ 57343)

instance (c : Nat) : Decidable (isScalarValue c) := by
  unfold isScalarValue; infer_instance

/-- The characters `encodeURIComponent` leaves unescaped:
`A-Z a-z 0-9 - _ . ! ~ * ' ( )` (ECMA-262 `uriUnescaped`). -/
def isUnreservedCode (c : Nat) : Bool :=
  (65 ≤ c && c ≤ 90) || (97 ≤ c && c ≤ 122) || (48 ≤ c && c ≤ 57) ||
  (c == 45) || (c == 95) || (c == 46) || (c == 33) || (c == 126) ||
  (c == 42) || (c == 39) || (c == 40) || (c == 41)

/-- Uppercase hex digit for a nibble, as a code point (`0`-`9`, `A`-`F`). -/
def hexDigit (n : Nat) : Nat :=
  if n < 10 then 48 + n else 55 + n

/-- Value of a hex-digit code point, accepting both cases (as the builtin
decoder does). -/
def hexVal (c : Nat) : Option Nat :=
  if 48 ≤ c && c ≤ 57 then some (c - 48)
  else if 65 ≤ c && c ≤ 70 then some (c - 55)
  else if 97 ≤ c && c ≤ 102 then some (c - 87)
  else none

/-- UTF-8 bytes of a code point. -/
def utf8EncodeChar (c : Nat) : List Nat :=
  if c < 128 then [c]
  else if c < 2048 then [192 + c / 64, 128 + c % 64]
  else if c < 65536 then [224 + c / 4096, 128 + (c / 64) % 64, 128 + c % 64]
  else [240 + c / 262144, 128 + (c / 4096) % 64, 128 + (c / 64) % 64, 128 + c % 64]

/-- `%XX` escape of one byte, uppercase hex (three code points). -/
def escapeByte (b : Nat) : List Nat :=
  [37, hexDigit (b / 16), hexDigit (b % 16)]

/-- `encodeURIComponent` on one code point. -/
def encodeChar (c : Nat) : List Nat :=
  if isUnreservedCode c then [c] else (utf8EncodeChar c).flatMap escapeByte

/-- Model of the JavaScript builtin `encodeURIComponent`. -/
def encodeURIComponent (s : List Nat) : List Nat :=
  s.flatMap encodeChar

/-- Read one `%XX` escape: the leading `%`, then two hex digits giving a
byte value. -/
def readEscByte : List Nat → Option (Nat × List Nat)
  | 37 :: h1 :: h2 :: r =>
    match hexVal h1, hexVal h2 with
    | some d1, some d2 => some (16 * d1 + d2, r)
    | _, _ => none
  | _ => none

/-- Parse the escape sequence beginning at a `%`: one escaped byte, plus —
when its high bits announce a multi-byte UTF-8 sequence — the escaped
continuation bytes, yielding the decoded code point and the remaining
input. -/
def parseEscape (l : List Nat) : Option (Nat × List Nat) :=
  match readEscByte l with
  | none => none
  | some (b1, r1) =>
    if b1 < 128 then some (b1, r1)
    else if b1 < 192 then none
    else if b1 < 224 then
      match readEscByte r1 with
      | none => none
      | some (b2, r2) =>
        if 128 ≤ b2 && b2 < 192 then some ((b1 - 192) * 64 + (b2 - 128), r2) else none
    else if b1 < 240 then
      match readEscByte r1 with
      | none => none
      | some (b2, r2) =>
        match readEscByte r2 with
        | none => none
        | some (b3, r3) =>
          if (128 ≤ b2 && b2 < 192) && (128 ≤ b3 && b3 < 192) then
            some ((b1 - 224) * 4096 + (b2 - 128) * 64 + (b3 - 128), r3)
          else none
    else if b1 < 248 then
      match readEscByte r1 with
      | none => none
      | some (b2, r2) =>
        match readEscByte r2 with
        | none => none
        | some (b3, r3) =>
          match readEscByte r3 with
          | none => none
          | some (b4, r4) =>
            if (128 ≤ b2 && b2 < 192) && (128 ≤ b3 && b3 < 192) && (128 ≤ b4 && b4 < 192) then
              some ((b1 - 240) * 262144 + (b2 - 128) * 4096 + (b3 - 128) * 64 + (b4 - 128), r4)
            else none
    else none

theorem readEscByte_length {l : List Nat} {b : Nat} {r : List Nat}
    (h : readEscByte l = some (b, r)) : r.length + 3 = l.length := by
  unfold readEscByte at h
  repeat' split at h
  all_goals simp_all

theorem parseEscape_length {l : List Nat} {cp : Nat} {r : List Nat}
    (h : parseEscape l = some (cp, r)) : r.length < l.length := by
  unfold parseEscape at h
  cases e1 : readEscByte l with
  | none => rw [e1] at h; exact absurd h (by simp)
  | some p1 =>
    obtain ⟨b1, r1⟩ := p1
    rw [e1] at h
    have L1 := readEscByte_length e1
    dsimp only at h
    split at h
    · simp only [Option.some.injEq, Prod.mk.injEq] at h
      obtain ⟨-, hr⟩ := h; subst hr; omega
    · split at h
      · exact absurd h (by simp)
      · split at h
        · cases e2 : readEscByte r1 with
          | none => rw [e2] at h; exact absurd h (by simp)
          | some p2 =>
            obtain ⟨b2, r2⟩ := p2
            rw [e2] at h
            have L2 := readEscByte_length e2
            dsimp only at h
            split at h
            · simp only [Option.some.injEq, Prod.mk.injEq] at h
              obtain ⟨-, hr⟩ := h; subst hr; omega
            · exact absurd h (by simp)
        · split at h
          · cases e2 : readEscByte r1 with
            | none => rw [e2] at h; exact absurd h (by simp)
            | some p2 =>
              obtain ⟨b2, r2⟩ := p2
              rw [e2] at h
              have L2 := readEscByte_length e2
              dsimp only at h
              cases e3 : readEscByte r2 with
              | none => rw [e3] at h; exact absurd h (by simp)
              | some p3 =>
                obtain ⟨b3, r3⟩ := p3
                rw [e3] at h
                have L3 := readEscByte_length e3
                dsimp only at h
                split at h
                · simp only [Option.some.injEq, Prod.mk.injEq] at h
                  obtain ⟨-, hr⟩ := h; subst hr; omega
                · exact absurd h (by simp)
          · split at h
            · cases e2 : readEscByte r1 with
              | none => rw [e2] at h; exact absurd h (by simp)
              | some p2 =>
                obtain ⟨b2, r2⟩ := p2
                rw [e2] at h
                have L2 := readEscByte_length e2
                dsimp only at h
                cases e3 : readEscByte r2 with
                | none => rw [e3] at h; exact absurd h (by simp)
                | some p3 =>
                  obtain ⟨b3, r3⟩ := p3
                  rw [e3] at h
                  have L3 := readEscByte_length e3
                  dsimp only at h
                  cases e4 : readEscByte r3 with
                  | none => rw [e4] at h; exact absurd h (by simp)
                  | some p4 =>
                    obtain ⟨b4, r4⟩ := p4
                    rw [e4] at h
                    have L4 := readEscByte_length e4
                    dsimp only at h
                    split at h
                    · simp only [Option.some.injEq, Prod.mk.injEq] at h
                      obtain ⟨-, hr⟩ := h; subst hr; omega
                    · exact absurd h (by simp)
            · exact absurd h (by simp)

/-- Model of the JavaScript builtin `decodeURIComponent`: unescaped code
points pass through; a `%` must begin a `%XX` escape, and an escaped byte
with the high bit set must start a complete UTF-8 sequence whose
continuation bytes are themselves escaped. Returns `none` where the builtin
throws `URIError`. (The model is permissive about overlong sequences, which
does not matter on the image of the encoder.) -/
def percentDecode : List Nat → Option (List Nat)
  | [] => some []
  | c :: rest =>
    if c = 37 then
      match hpe : parseEscape (37 :: rest) with
      | some (cp, rest2) => (percentDecode rest2).map (cp :: ·)
      | none => none
    else (percentDecode rest).map (c :: ·)
termination_by l => l.length
decreasing_by
  · have := parseEscape_length hpe
    simpa using this
  · simp

/-- Leading-slash stripping (`path.replace(/^\/+/, '')` in
`encodeUriPathComponent`). -/
def stripLeadingSlashes (p : List Nat) : List Nat :=
  p.dropWhile (· = 47)

/-- `encodeUriPathComponent` from `src/utils/uri-builder.ts`: remove leading
slashes, then percent-encode the remainder as one opaque segment. -/
def encodeUriPathComponent (p : List Nat) : List Nat :=
  encodeURIComponent (stripLeadingSlashes p)

/-- Modelled from the spec: `normalize` adds a single leading slash, i.e.
the normalized form of a path is exactly one leading slash followed by the
slash-stripped remainder (the spec stores paths "in decoded,
leading-slash-normalized form"). -/
def normalizePath (p : List Nat) : List Nat :=
  47 :: stripLeadingSlashes p

theorem hexVal_hexDigit (d : Nat) (h : d < 16) : hexVal (hexDigit d) = some d := by
  interval_cases d <;> decide

theorem readEscByte_escapeByte (b : Nat) (hb : b < 256) (t : List Nat) :
    readEscByte (escapeByte b ++ t) = some (b, t) := by
  show readEscByte (37 :: hexDigit (b / 16) :: hexDigit (b % 16) :: t) = _
  rw [readEscByte, hexVal_hexDigit _ (by omega), hexVal_hexDigit _ (by omega)]
  simp only [Option.some.injEq, Prod.mk.injEq]
  exact ⟨by omega, trivial⟩

theorem percentDecode_cons_of_ne (c : Nat) (h : c ≠ 37) (t : List Nat) :
    percentDecode (c :: t) = (percentDecode t).map (c :: ·) := by
  rw [percentDecode, if_neg h]

theorem percentDecode_of_parseEscape {rest : List Nat} {cp : Nat} {r2 : List Nat}
    (hp : parseEscape (37 :: rest) = some (cp, r2)) :
    percentDecode (37 :: rest) = (percentDecode r2).map (cp :: ·) := by
  rw [percentDecode, if_pos rfl]
  split
  · rename_i cp' rest2' heq
    rw [hp] at heq
    simp only [Option.some.injEq, Prod.mk.injEq] at heq
    rw [heq.1, heq.2]
  · rename_i heq
    rw [hp] at heq
    exact absurd heq (by simp)

/-- The escape expansion of one non-unreserved scalar value parses back to
that value. -/
theorem parseEscape_encodeChar (c : Nat) (hc : c < 1114112) (t : List Nat) :
    parseEscape ((utf8EncodeChar c).flatMap escapeByte ++ t) = some (c, t) := by
  rcases Nat.lt_or_ge c 128 with h1 | h1
  · have hb : utf8EncodeChar c = [c] := by rw [utf8EncodeChar, if_pos h1]
    rw [hb]
    simp only [List.flatMap_cons, List.flatMap_nil, List.append_nil]
    rw [parseEscape, readEscByte_escapeByte c (by omega)]
    dsimp only
    rw [if_pos h1]
  · rcases Nat.lt_or_ge c 2048 with h2 | h2
    · have hb : utf8EncodeChar c = [192 + c / 64, 128 + c % 64] := by
        rw [utf8EncodeChar, if_neg (by omega), if_pos h2]
      rw [hb]
      simp only [List.flatMap_cons, List.flatMap_nil, List.append_nil, List.append_assoc]
      rw [parseEscape, readEscByte_escapeByte _ (by omega)]
      dsimp only
      rw [if_neg (by omega), if_neg (by omega), if_pos (by omega)]
      rw [readEscByte_escapeByte _ (by omega)]
      dsimp only
      rw [if_pos (by simp only [Bool.and_eq_true, decide_eq_true_eq]; omega)]
      simp only [Option.some.injEq, Prod.mk.injEq]
      exact ⟨by omega, trivial⟩
    · rcases Nat.lt_or_ge c 65536 with h3 | h3
      · have hb : utf8EncodeChar c =
            [224 + c / 4096, 128 + (c / 64) % 64, 128 + c % 64] := by
          rw [utf8EncodeChar, if_neg (by omega), if_neg (by omega), if_pos h3]
        rw [hb]
        simp only [List.flatMap_cons, List.flatMap_nil, List.append_nil, List.append_assoc]
        rw [parseEscape, readEscByte_escapeByte _ (by omega)]
        dsimp only
        rw [if_neg (by omega), if_neg (by omega), if_neg (by omega), if_pos (by omega)]
        rw [readEscByte_escapeByte _ (by omega)]
        dsimp only
        rw [readEscByte_escapeByte _ (by omega)]
        dsimp only
        rw [if_pos (by simp only [Bool.and_eq_true, decide_eq_true_eq]; omega)]
        simp only [Option.some.injEq, Prod.mk.injEq]
        exact ⟨by omega, trivial⟩
      · have hb : utf8EncodeChar c =
            [240 + c / 262144, 128 + (c / 4096) % 64, 128 + (c / 64) % 64, 128 + c % 64] := by
          rw [utf8EncodeChar, if_neg (by omega), if_neg (by omega), if_neg (by omega)]
        rw [hb]
        simp only [List.flatMap_cons, List.flatMap_nil, List.append_nil, List.append_assoc]
        rw [parseEscape, readEscByte_escapeByte _ (by omega)]
        dsimp only
        rw [if_neg (by omega), if_neg (by omega), if_neg (by omega), if_neg (by omega),
            if_pos (by omega)]
        rw [readEscByte_escapeByte _ (by omega)]
        dsimp only
        rw [readEscByte_escapeByte _ (by omega)]
        dsimp only
        rw [readEscByte_escapeByte _ (by omega)]
        dsimp only
        rw [if_pos (by simp only [Bool.and_eq_true, decide_eq_true_eq]; omega)]
        simp only [Option.some.injEq, Prod.mk.injEq]
        exact ⟨by omega, trivial⟩

/-- Stepping lemma: decoding the encoding of one scalar value prepends that
value. -/
theorem percentDecode_encodeChar (c : Nat) (hc : c < 1114112) (t : List Nat) :
    percentDecode (encodeChar c ++ t) = (percentDecode t).map (c :: ·) := by
  by_cases hu : isUnreservedCode c
  · have hne : c ≠ 37 := by
      intro h; rw [h] at hu; exact absurd hu (by decide)
    rw [encodeChar, if_pos hu, List.singleton_append]
    exact percentDecode_cons_of_ne c hne t
  · rw [encodeChar, if_neg hu]
    have hesc := parseEscape_encodeChar c hc t
    have hfirst : ∃ r, (utf8EncodeChar c).flatMap escapeByte ++ t = 37 :: r := by
      rcases Nat.lt_or_ge c 128 with h1 | h1
      · rw [utf8EncodeChar, if_pos h1]
        exact ⟨hexDigit (c / 16) :: hexDigit (c % 16) :: t, by simp [escapeByte]⟩
      · rcases Nat.lt_or_ge c 2048 with h2 | h2
        · rw [utf8EncodeChar, if_neg (by omega), if_pos h2]
          exact ⟨hexDigit ((192 + c / 64) / 16) :: hexDigit ((192 + c / 64) % 16) ::
            (escapeByte (128 + c % 64) ++ t), by simp [escapeByte]⟩
        · rcases Nat.lt_or_ge c 65536 with h3 | h3
          · rw [utf8EncodeChar, if_neg (by omega), if_neg (by omega), if_pos h3]
            exact ⟨hexDigit ((224 + c / 4096) / 16) :: hexDigit ((224 + c / 4096) % 16) ::
              (escapeByte (128 + (c / 64) % 64) ++ (escapeByte (128 + c % 64) ++ t)),
              by simp [escapeByte]⟩
          · rw [utf8EncodeChar, if_neg (by omega), if_neg (by omega), if_neg (by omega)]
            exact ⟨hexDigit ((240 + c / 262144) / 16) :: hexDigit ((240 + c / 262144) % 16) ::
              (escapeByte (128 + (c / 4096) % 64) ++ (escapeByte (128 + (c / 64) % 64) ++
                (escapeByte (128 + c % 64) ++ t))), by simp [escapeByte]⟩
    obtain ⟨r, hr⟩ := hfirst
    rw [hr] at hesc ⊢
    exact percentDecode_of_parseEscape hesc

/-- Decoding inverts encoding on every list of scalar values. -/
theorem percentDecode_encodeURIComponent (l : List Nat)
    (h : ∀ c ∈ l, isScalarValue c) :
    percentDecode (encodeURIComponent l) = some l := by
  induction l with
  | nil => simp [encodeURIComponent, percentDecode]
  | cons c t ih =>
    have hc : isScalarValue c := h c (List.mem_cons_self ..)
    have ht : ∀ x ∈ t, isScalarValue x := fun x hx => h x (List.mem_cons_of_mem _ hx)
    have hstep : encodeURIComponent (c :: t) = encodeChar c ++ encodeURIComponent t := by
      simp [encodeURIComponent]
    rw [hstep, percentDecode_encodeChar c hc.1, ih ht]
    rfl

/-- C2: decoding the encoded form of a path and re-prefixing a single
leading slash recovers the leading-slash-normalized form of the path —
`decode(encode(p)) == normalize(p)` — for every path string `p`; and
`/users/{id}` encodes to `users%2F%7Bid%7D` (the lists spell those strings
as code points). -/
theorem c2_decode_encode_roundtrip :
    (∀ p : List Nat, (∀ c ∈ p, isScalarValue c) →
      (percentDecode (encodeUriPathComponent p)).map (fun q => 47 :: q) =
        some (normalizePath p))
    ∧ encodeUriPathComponent [47, 117, 115, 101, 114, 115, 47, 123, 105, 100, 125] =
        [117, 115, 101, 114, 115, 37, 50, 70, 37, 55, 66, 105, 100, 37, 55, 68] := by
  constructor
  · intro p h
    have hsub : ∀ c ∈ stripLeadingSlashes p, isScalarValue c := fun c hc =>
      h c ((List.dropWhile_sublist _).mem hc)
    rw [encodeUriPathComponent, percentDecode_encodeURIComponent _ hsub]
    rfl
  · decide

/-- Witness for C2 at the concrete path `/users/{id}`. -/
theorem c2_decode_encode_roundtrip_witness :
    (∀ c ∈ [47, 117, 115, 101, 114, 115, 47, 123, 105, 100, 125], isScalarValue c)
    ∧ (percentDecode (encodeUriPathComponent
        [47, 117, 115, 101, 114, 115, 47, 123, 105, 100, 125])).map (fun q => 47 :: q) =
      some (normalizePath [47, 117, 115, 101, 114, 115, 47, 123, 105, 100, 125]) :=
  ⟨by decide, c2_decode_encode_roundtrip.1 _ (by decide)⟩

/-! ## Document model

The dereferenced OpenAPI document, as the typed tree the resolution layer
walks. JavaScript objects are modelled as insertion-ordered association
lists (matching `Object.keys` enumeration order); loosely-typed payloads
are a small JSON value type. -/

/-- A JSON-like payload value (operations, component objects, field
values). -/
inductive JsonV where
  | jnull : JsonV
  | jstr : String → JsonV
  | jobj : List (String × JsonV) → JsonV

/-- The `info` object of a document. -/
structure InfoObj where
  title : Option String
  description : Option String
  version : Option String

/-- A path item: mapping from (method) key to operation object. -/
abbrev PathItemObj : Type := List (String × JsonV)

/-- A component map: mapping from component name to component object. -/
abbrev ComponentMap : Type := List (String × JsonV)

/-- The `components` object: mapping from component type to component
map. -/
abbrev ComponentsObj : Type := List (String × ComponentMap)

/-- The dereferenced document (the fields the engine reads). `Option`
marks fields that may be absent in the source JSON. -/
structure OpenApiDoc where
  openapi : Option String
  info : Option InfoObj
  paths : List (String × PathItemObj)
  components : Option ComponentsObj

/-- Modelled from the spec: the `isOpenAPIV3`-style guard from the missing
`handlers/handler-utils.ts` — the document declares an `openapi` version
starting with `3` (first-character check, kept kernel-computable). -/
def isOpenAPIV3 (d : OpenApiDoc) : Bool :=
  match d.openapi with
  | some v =>
    match v.data with
    | c :: _ => c = '3'
    | [] => false
  | none => false

/-- JavaScript `x || d` on an optional string: `undefined` and `""` both
fall through to the default. -/
def orDefaultStr (o : Option String) (d : String) : String :=
  match o with
  | some s => if s = "" then d else s
  | none => d

/-- `spec.info?.title || 'Untitled API'` from
`src/services/spec-manager.ts`. -/
def titleOf (d : OpenApiDoc) : String :=
  orDefaultStr (d.info.bind (·.title)) "Untitled API"

/-- `spec.info?.description || ''`. -/
def descriptionOf (d : OpenApiDoc) : String :=
  orDefaultStr (d.info.bind (·.description)) ""

/-- `spec.info?.version || ''`. -/
def versionOf (d : OpenApiDoc) : String :=
  orDefaultStr (d.info.bind (·.version)) ""

/-! ## Spec Registry (`src/services/spec-manager.ts`) -/

/-- `\w` of a JavaScript regex: `[A-Za-z0-9_]`. -/
def isWordCharJS (ch : Char) : Bool :=
  (65 ≤ ch.toNat && ch.toNat ≤ 90) || (97 ≤ ch.toNat && ch.toNat ≤ 122) ||
  (48 ≤ ch.toNat && ch.toNat ≤ 57) || ch = '_'

/-- `\s` of a JavaScript regex (ASCII whitespace, NBSP, BOM and the
Unicode space separators). -/
def isSpaceJS (ch : Char) : Bool :=
  ch.toNat = 32 || ch.toNat = 9 || ch.toNat = 10 || ch.toNat = 13 ||
  ch.toNat = 11 || ch.toNat = 12 || ch.toNat = 160 || ch.toNat = 5760 ||
  (8192 ≤ ch.toNat && ch.toNat ≤ 8202) || ch.toNat = 8232 || ch.toNat = 8233 ||
  ch.toNat = 8239 || ch.toNat = 8287 || ch.toNat = 12288 || ch.toNat = 65279

/-- Replace every run of characters satisfying `sepP` by the single
character `out`; the flag records whether the previous character belonged
to a run. -/
def collapseRuns (sepP : Char → Bool) (out : Char) : Bool → List Char → List Char
  | _, [] => []
  | inRun, c :: rest =>
    if sepP c then
      if inRun then collapseRuns sepP out true rest
      else out :: collapseRuns sepP out true rest
    else c :: collapseRuns sepP out false rest

/-- The `[\s_]+`-to-`-` replacement in `slugify`: each run of
whitespace/underscores becomes a single hyphen. -/
def collapseSpaceUnderscore (l : List Char) : List Char :=
  collapseRuns (fun x => isSpaceJS x || x = '_') '-' false l

/-- The hyphen-run collapse in `slugify`: each run of hyphens becomes a
single hyphen. -/
def collapseHyphens (l : List Char) : List Char :=
  collapseRuns (· = '-') '-' false l

/-- Drop trailing characters satisfying `p`. -/
def dropTrailing (p : Char → Bool) (l : List Char) : List Char :=
  (l.reverse.dropWhile p).reverse

/-- JavaScript `String.prototype.trim` (whitespace from both ends). -/
def trimJS (s : String) : String :=
  String.mk (dropTrailing isSpaceJS (s.data.dropWhile isSpaceJS))

/-- ASCII lower-casing of a string (`toLowerCase` on the code points the
engine handles). -/
def toLowerS (s : String) : String :=
  String.mk (s.data.map Char.toLower)

/-- `slugify` from `src/services/spec-manager.ts`: lower-case, trim, strip
`[^\w\s-]`, collapse `[\s_]+` to `-`, collapse `-+` to `-`, trim leading
and trailing hyphens. (`toLowerCase` is modelled on ASCII letters, which
`Char.toLower` matches.) -/
def slugify (text : String) : String :=
  let l1 := text.data.map Char.toLower
  let l2 := dropTrailing isSpaceJS (l1.dropWhile isSpaceJS)
  let l3 := l2.filter (fun c => isWordCharJS c || isSpaceJS c || c = '-')
  let l4 := collapseSpaceUnderscore l3
  let l5 := collapseHyphens l4
  String.mk (dropTrailing (· = '-') (l5.dropWhile (· = '-')))

/-- Strip a trailing `.json` / `.yaml` / `.yml` extension,
case-insensitively, as the filename fallback in `loadSpecs` does. -/
def stripSpecExt (s : String) : String :=
  let lower := String.mk (s.data.map Char.toLower)
  if lower.endsWith ".json" then String.mk (s.data.take (s.data.length - 5))
  else if lower.endsWith ".yaml" then String.mk (s.data.take (s.data.length - 5))
  else if lower.endsWith ".yml" then String.mk (s.data.take (s.data.length - 4))
  else s

/-- `filePath.split('/').pop()`. -/
def lastPathSegment (p : String) : String :=
  ((p.splitOn "/").getLast?).getD ""

/-- The slug a document is registered under: `slugify(title)`, with the
filename fallback from `SpecManagerService.loadSpecs`. (`irreducible`
keeps the elaborator from symbolically evaluating string internals; proofs
unfold it explicitly and the kernel still computes it.) -/
@[irreducible] def computeSlug (filePath : String) (doc : OpenApiDoc) : String :=
  let slug := slugify (titleOf doc)
  if slug = "" then
    let fn := stripSpecExt (lastPathSegment filePath)
    slugify (if fn = "" then "api" else fn)
  else slug

/-- A registry entry (`LoadedSpec` in `src/services/spec-manager.ts`, with
the loader handle dropped). -/
structure LoadedSpec where
  slug : String
  title : String
  description : String
  version : String
  pathCount : Nat
  deriving DecidableEq

/-- One spec path given to `loadSpecs`, together with what loading and
dereferencing it would produce: `.error msg` stands for the loader
rejecting with `msg`. -/
structure LoadInput where
  filePath : String
  outcome : Except String OpenApiDoc

/-- The registry entry built for a successfully loaded document. -/
def mkEntry (filePath : String) (doc : OpenApiDoc) : LoadedSpec :=
  { slug := computeSlug filePath doc
  , title := titleOf doc
  , description := descriptionOf doc
  , version := versionOf doc
  , pathCount := doc.paths.length }

/-- The `loadSpecs` loop of `SpecManagerService`. The loop body has no
try/catch, so a loader failure propagates and aborts the remaining
iterations with the loader's own error; a slug collision skips that
document, keeping the earlier entry ("First loaded wins on
collision"). -/
def loadSpecsAux (reg : List LoadedSpec) :
    List LoadInput → Except String (List LoadedSpec)
  | [] => .ok reg
  | inp :: rest =>
    match inp.outcome with
    | .error msg => .error msg
    | .ok doc =>
      let slug := computeSlug inp.filePath doc
      if (reg.map (·.slug)).contains slug then loadSpecsAux reg rest
      else loadSpecsAux (reg ++ [mkEntry inp.filePath doc]) rest

/-- `SpecManagerService.loadSpecs`: run the loop over every path in
order, propagating a loader failure; if it completes with nothing
registered, fail with "No specs were loaded successfully.". -/
def loadSpecs (inputs : List LoadInput) : Except String (List LoadedSpec) :=
  match loadSpecsAux [] inputs with
  | .error msg => .error msg
  | .ok reg =>
    if reg.isEmpty then .error "No specs were loaded successfully."
    else .ok reg

/-! ## Registry listing (`src/handlers/specs-list-handler.ts`) -/

/-- The lines rendered for one spec entry in the `openapi://specs`
listing (string lengths are code units, modelled as characters). -/
def specEntryParts (s : LoadedSpec) : List String :=
  ["## " ++ s.slug, "Title: " ++ s.title]
  ++ (if s.description ≠ "" then
        [if 200 < s.description.length then
          "Description: " ++ s.description.take 200 ++ "..."
         else "Description: " ++ s.description]
      else [])
  ++ (if s.version ≠ "" then ["Version: " ++ s.version] else [])
  ++ ["Paths: " ++ toString s.pathCount ++ " endpoints"]

/-- The full `openapi://specs` text. -/
def specsListText (specs : List LoadedSpec) : String :=
  String.intercalate "\n\n" (specs.map (fun s => String.intercalate "\n" (specEntryParts s)))

theorem string_data_append (s t : String) : (s ++ t).data = s.data ++ t.data := by
  cases s; cases t; rfl

theorem string_ne_of_head {a b : String} {c1 c2 : Char}
    (e1 : a.data.head? = some c1) (e2 : b.data.head? = some c2) (h : c1 ≠ c2) :
    a ≠ b := by
  intro he
  rw [he, e2] at e1
  exact h (Option.some.inj e1).symm

/-- C6: a document's registry slug is `slugify` of its title (with the
filename fallback only when that is empty), and when two documents compute
the same slug only the first loaded is registered — the second is skipped
and absent from the registry. -/
theorem c6_slug_collision_first_wins
    (p1 p2 : String) (d1 d2 : OpenApiDoc)
    (hslug : computeSlug p1 d1 = computeSlug p2 d2) :
    loadSpecs [⟨p1, .ok d1⟩, ⟨p2, .ok d2⟩] = .ok [mkEntry p1 d1]
    ∧ (mkEntry p1 d1).slug = computeSlug p1 d1
    ∧ (slugify (titleOf d1) ≠ "" → computeSlug p1 d1 = slugify (titleOf d1)) := by
  refine ⟨?_, ?_, ?_⟩
  · have hcond : (([mkEntry p1 d1].map (fun e => e.slug)).contains (computeSlug p2 d2)) = true := by
      have hme : (mkEntry p1 d1).slug = computeSlug p2 d2 := hslug
      simp only [List.map_cons, List.map_nil, List.contains_cons, hme, beq_self_eq_true,
        Bool.true_or]
    have step : loadSpecsAux [] [(⟨p1, .ok d1⟩ : LoadInput), ⟨p2, .ok d2⟩] =
        .ok [mkEntry p1 d1] := by
      rw [loadSpecsAux]
      dsimp only
      rw [if_neg (by simp)]
      simp only [List.nil_append]
      rw [loadSpecsAux]
      dsimp only
      rw [if_pos hcond]
      rw [loadSpecsAux]
    unfold loadSpecs
    rw [step]
    rfl
  · simp only [mkEntry]
  · intro hne
    simp [computeSlug, hne]

/-- Witness for C6: titles `Demo API` and `Demo_API` both slugify to
`demo-api`; only the first document is registered. -/
theorem c6_slug_collision_first_wins_witness :
    computeSlug "a.json" ⟨some "3.0.0", some ⟨some "Demo API", none, none⟩, [], none⟩
      = computeSlug "b.json" ⟨some "3.0.0", some ⟨some "Demo_API", none, none⟩, [], none⟩
    ∧ (loadSpecs [⟨"a.json", .ok ⟨some "3.0.0", some ⟨some "Demo API", none, none⟩, [], none⟩⟩,
                  ⟨"b.json", .ok ⟨some "3.0.0", some ⟨some "Demo_API", none, none⟩, [], none⟩⟩]
        = .ok [mkEntry "a.json" ⟨some "3.0.0", some ⟨some "Demo API", none, none⟩, [], none⟩]
      ∧ (mkEntry "a.json" ⟨some "3.0.0", some ⟨some "Demo API", none, none⟩, [], none⟩).slug
        = computeSlug "a.json" ⟨some "3.0.0", some ⟨some "Demo API", none, none⟩, [], none⟩
      ∧ (slugify (titleOf ⟨some "3.0.0", some ⟨some "Demo API", none, none⟩, [], none⟩) ≠ "" →
          computeSlug "a.json" ⟨some "3.0.0", some ⟨some "Demo API", none, none⟩, [], none⟩
          = slugify (titleOf ⟨some "3.0.0", some ⟨some "Demo API", none, none⟩, [], none⟩))) :=
  ⟨by unfold computeSlug; decide, c6_slug_collision_first_wins _ _ _ _ (by unfold computeSlug; decide)⟩

/-- C10 counterexample: with a single failing spec path — "all loads
failed" — `loadSpecs` aborts with that loader's own error, not with
"No specs were loaded successfully." as the claim states. -/
theorem c10_load_failure_counterexample :
    loadSpecs [⟨"a.json", .error "Failed to load spec"⟩] = .error "Failed to load spec"
    ∧ loadSpecs [⟨"a.json", .error "Failed to load spec"⟩]
        ≠ .error "No specs were loaded successfully." :=
  ⟨rfl, by intro h; rw [show loadSpecs [⟨"a.json", .error "Failed to load spec"⟩] =
      .error "Failed to load spec" from rfl] at h; simp at h⟩

/-- C10 (amended): a load failure propagates, aborting `loadSpecs` with
that loader's own error; if the loop instead completes over every given
path with the registry still empty, `loadSpecs` fails with "No specs were
loaded successfully."; consequently a successful `loadSpecs` leaves at
least one registry entry. -/
theorem c10_empty_registry_throws
    (inputs1 inputs2 : List LoadInput) (reg2 : List LoadedSpec)
    (p msg : String) (rest : List LoadInput)
    (hempty : loadSpecsAux [] inputs1 = .ok [])
    (hok : loadSpecs inputs2 = .ok reg2) :
    loadSpecs inputs1 = .error "No specs were loaded successfully."
    ∧ reg2 ≠ []
    ∧ loadSpecs (⟨p, .error msg⟩ :: rest) = .error msg := by
  refine ⟨?_, ?_, ?_⟩
  · unfold loadSpecs
    rw [hempty]
    rfl
  · intro hnil
    subst hnil
    unfold loadSpecs at hok
    cases e : loadSpecsAux [] inputs2 with
    | error m => rw [e] at hok; exact absurd hok (by simp)
    | ok reg =>
      rw [e] at hok
      dsimp only at hok
      split at hok
      · exact absurd hok (by simp)
      · rename_i hne
        simp only [Except.ok.injEq] at hok
        rw [hok] at hne
        simp at hne
  · unfold loadSpecs
    rw [show loadSpecsAux [] ((⟨p, .error msg⟩ : LoadInput) :: rest) = .error msg from by
      rw [loadSpecsAux]]

/-- Witness for the amended C10: the empty path list reaches the
"No specs were loaded successfully." error; one successful load leaves a
non-empty registry; one failing load aborts with the loader's error. -/
theorem c10_empty_registry_throws_witness :
    loadSpecsAux [] ([] : List LoadInput) = .ok []
    ∧ loadSpecs [⟨"b.json", .ok ⟨some "3.0.0", some ⟨some "Demo API", none, none⟩, [], none⟩⟩]
        = .ok [mkEntry "b.json" ⟨some "3.0.0", some ⟨some "Demo API", none, none⟩, [], none⟩]
    ∧ (loadSpecs ([] : List LoadInput) = .error "No specs were loaded successfully."
        ∧ [mkEntry "b.json" ⟨some "3.0.0", some ⟨some "Demo API", none, none⟩, [], none⟩] ≠ []
        ∧ loadSpecs ((⟨"a.json", .error "Failed to load spec"⟩ : LoadInput) :: [])
            = .error "Failed to load spec") :=
  ⟨rfl, rfl,
    c10_empty_registry_throws []
      [⟨"b.json", .ok ⟨some "3.0.0", some ⟨some "Demo API", none, none⟩, [], none⟩⟩]
      [mkEntry "b.json" ⟨some "3.0.0", some ⟨some "Demo API", none, none⟩, [], none⟩]
      "a.json" "Failed to load spec" [] rfl rfl⟩

/-- C9: in the `openapi://specs` listing a description longer than 200
characters is truncated to its first 200 characters plus `...`, a shorter
non-empty description is rendered in full, and an empty description
produces no `Description:` line. -/
theorem c9_description_truncation
    (s1 s2 s3 : LoadedSpec)
    (h1 : 200 < s1.description.length)
    (h2 : s2.description ≠ "") (h2l : s2.description.length ≤ 200)
    (h3 : s3.description = "") :
    ("Description: " ++ s1.description.take 200 ++ "...") ∈ specEntryParts s1
    ∧ ("Description: " ++ s2.description) ∈ specEntryParts s2
    ∧ ∀ l ∈ specEntryParts s3, ∀ d : String, l ≠ "Description: " ++ d := by
  refine ⟨?_, ?_, ?_⟩
  · have hne : s1.description ≠ "" := by
      intro h0; rw [h0] at h1; simp at h1
    simp [specEntryParts, hne, h1]
  · have hnl : ¬ 200 < s2.description.length := by omega
    simp [specEntryParts, h2, hnl]
  · have eD : ∀ d : String, ("Description: " ++ d).data.head? = some 'D' := by
      intro d; rw [string_data_append]; rfl
    have eHash : ("## " ++ s3.slug).data.head? = some '#' := by
      rw [string_data_append]; rfl
    have eT : ("Title: " ++ s3.title).data.head? = some 'T' := by
      rw [string_data_append]; rfl
    have eV : ("Version: " ++ s3.version).data.head? = some 'V' := by
      rw [string_data_append]; rfl
    have eP : ("Paths: " ++ toString s3.pathCount ++ " endpoints").data.head? = some 'P' := by
      rw [string_data_append, string_data_append]; rfl
    intro l hl d
    simp only [specEntryParts, h3, ne_eq, not_true_eq_false, if_false,
      List.append_nil, List.nil_append] at hl
    by_cases hv : s3.version = ""
    · simp only [hv, not_true_eq_false, if_false] at hl
      simp only [List.append_nil, List.cons_append, List.nil_append, List.mem_cons,
        List.mem_singleton, List.not_mem_nil, or_false] at hl
      rcases hl with rfl | rfl | rfl
      · exact string_ne_of_head eHash (eD d) (by decide)
      · exact string_ne_of_head eT (eD d) (by decide)
      · exact string_ne_of_head eP (eD d) (by decide)
    · simp only [hv, not_false_eq_true, if_true] at hl
      simp only [List.append_nil, List.cons_append, List.nil_append, List.mem_cons,
        List.mem_singleton, List.not_mem_nil, or_false] at hl
      rcases hl with rfl | rfl | rfl | rfl
      · exact string_ne_of_head eHash (eD d) (by decide)
      · exact string_ne_of_head eT (eD d) (by decide)
      · exact string_ne_of_head eV (eD d) (by decide)
      · exact string_ne_of_head eP (eD d) (by decide)

/-! ## Request handling (Resolution Engine and Render Projection)

The registry as request handlers see it: slug → the outcome
`getTransformedSpec` would produce for that spec. -/

/-- Registry view used by handlers: each slug maps to its loader's fetch
outcome. -/
abbrev HandlerRegistry : Type := List (String × Except String OpenApiDoc)

/-- `SpecManagerService.getLoader`: unknown slugs throw, listing the
available slugs. -/
def getLoaderE (reg : HandlerRegistry) (specId : String) :
    Except String (Except String OpenApiDoc) :=
  match reg.lookup specId with
  | some loader => .ok loader
  | none => .error ("Spec \"" ++ specId ++ "\" not found. Available: " ++
      String.intercalate ", " (reg.map (·.1)))

/-- A render result item (`RenderResultItem` in `src/rendering/types.ts`,
shape visible through `src/rendering/utils.ts`). -/
structure RenderResultItem where
  uriSuffix : String
  data : Option JsonV
  isError : Bool
  errorText : Option String
  renderAsList : Bool

/-- `createErrorResult` from `src/rendering/utils.ts`. -/
def createErrorResult (uriSuffix msg : String) : List RenderResultItem :=
  [⟨uriSuffix, none, true, some msg, true⟩]

/-- Key lookup in a JSON object value. -/
def jlookup (j : JsonV) (k : String) : Option JsonV :=
  match j with
  | .jobj fs => fs.lookup k
  | _ => none

/-- Coerce an optional JSON value to a truthy string (JavaScript `||`
treats `""` as falsy). -/
def truthyStr (o : Option JsonV) : Option String :=
  match o with
  | some (.jstr s) => if s = "" then none else some s
  | _ => none

/-- `getOperationSummary` from `src/rendering/utils.ts`:
`operation?.summary || operation?.operationId || null`. -/
def getOperationSummary (op : Option JsonV) : Option String :=
  match truthyStr (op.bind (jlookup · "summary")) with
  | some s => some s
  | none => truthyStr (op.bind (jlookup · "operationId"))

/-- The canonical HTTP method set, in canonical order (spec §3/§4.4). -/
def CANONICAL_METHODS : List String :=
  ["get", "post", "put", "delete", "patch", "options", "head", "trace"]

/-- Modelled from the spec: the declared methods of a path item are "the
intersection of the PathItem's keys with the canonical method set, in
canonical method order" (the `RenderablePathItem` / `handler-utils`
sources are absent from src/). -/
def getDeclaredMethods (pi : PathItemObj) : List String :=
  CANONICAL_METHODS.filter (fun m => (pi.lookup m).isSome)

/-- Modelled from the spec: `getValidatedPathItem` from the missing
`handler-utils.ts` — absence of the normalized path fails; the message is
pinned by `operation-handler.test.ts` / `path-item-handler.test.ts`. -/
def getValidatedPathItem (spec : OpenApiDoc) (path : String) :
    Except String PathItemObj :=
  match spec.paths.lookup path with
  | some pi => .ok pi
  | none => .error ("Path \"" ++ path ++ "\" not found in the specification.")

/-- Modelled from the spec: partition the requested methods against the
declared set; an empty valid set fails enumerating the request as given
and the declared methods in canonical order (spec §4.4, message pinned by
the tests). -/
def getValidatedOperations (pi : PathItemObj) (methods : List String)
    (path : String) : Except String (List String) :=
  let declared := getDeclaredMethods pi
  let valid := methods.filter (fun m => declared.contains m)
  if valid.isEmpty then
    .error ("None of the requested methods (" ++ String.intercalate "," methods ++
      ") are valid for path \"" ++ path ++ "\". Available methods: " ++
      String.intercalate ", " declared)
  else .ok valid

/-- Leading-slash normalization before the `paths` lookup
(`src/handlers/path-item-handler.ts`): `decodedPath.startsWith('/')`
modelled as a first-character check. -/
def normalizeLookupPath (p : String) : String :=
  if p.data.head? = some '/' then p else "/" ++ p

/-- `encodeUriPathComponent` on Lean strings (the code-point encoder
wrapped back into `String`; encoder output is ASCII). -/
def encodeUriPathComponentS (p : String) : String :=
  String.mk ((encodeUriPathComponent (p.data.map Char.toNat)).map Char.ofNat)

/-- `buildOperationUriSuffix` from `src/utils/uri-builder.ts`. -/
def buildOperationUriSuffix (path m : String) : String :=
  "paths/" ++ encodeUriPathComponentS path ++ "/" ++ toLowerS m

/-- Modelled from the spec: the exploded `method` segment — each element
trimmed and lower-cased, empties dropped (spec §4.3; the
`operation-handler.ts` source is absent from src/). -/
def processRequestedMethods (methodVar : List String) : List String :=
  (methodVar.map (fun m => toLowerS (trimJS m))).filter (fun m => m ≠ "")

/-- The detail item for one valid method of a path item. -/
def operationDetailItem (decodedPath : String) (pi : PathItemObj)
    (m : String) : RenderResultItem :=
  { uriSuffix := buildOperationUriSuffix decodedPath m
  , data := pi.lookup m
  , isError := false
  , errorText := none
  , renderAsList := false }

/-- Modelled from the spec: `OperationHandler.handleRequest` (source absent
from src/; control flow per spec §4.4 and its unit/e2e tests): validate
the selector, fetch and guard the document, look the path up, partition
the methods, and emit one detail item per valid method; any failure
becomes a single error item addressed at the requested suffix. -/
def operationHandleRequest (reg : HandlerRegistry) (specId decodedPath : String)
    (methodVar : List String) : List RenderResultItem :=
  let methods := processRequestedMethods methodVar
  let errSuffix := "paths/" ++ encodeUriPathComponentS decodedPath ++ "/" ++
    String.intercalate "," methodVar
  if methods.isEmpty then
    createErrorResult errSuffix "No valid HTTP method specified."
  else
    match getLoaderE reg specId with
    | .error msg => createErrorResult errSuffix msg
    | .ok loader =>
      match loader with
      | .error msg => createErrorResult errSuffix msg
      | .ok spec =>
        if ¬ isOpenAPIV3 spec then
          createErrorResult errSuffix "Only OpenAPI v3 specifications are supported"
        else
          match getValidatedPathItem spec (normalizeLookupPath decodedPath) with
          | .error msg => createErrorResult errSuffix msg
          | .ok pi =>
            match getValidatedOperations pi methods (normalizeLookupPath decodedPath) with
            | .error msg => createErrorResult errSuffix msg
            | .ok valid => valid.map (operationDetailItem decodedPath pi)

/-- C1: an `OperationDetail` request whose method list has at least one
method declared on the path item resolves to exactly one detail item per
valid requested method — each addressed by its own operation URI suffix —
with the invalid requested methods silently omitted and no error item. -/
theorem c1_operation_partial_validity
    (spec : OpenApiDoc) (specId decodedPath : String) (methodVar : List String)
    (pi : PathItemObj)
    (hv3 : isOpenAPIV3 spec = true)
    (hfind : spec.paths.lookup (normalizeLookupPath decodedPath) = some pi)
    (hvalid : (processRequestedMethods methodVar).filter
        (fun m => (getDeclaredMethods pi).contains m) ≠ []) :
    operationHandleRequest [(specId, .ok spec)] specId decodedPath methodVar =
      ((processRequestedMethods methodVar).filter
        (fun m => (getDeclaredMethods pi).contains m)).map (operationDetailItem decodedPath pi)
    ∧ ∀ item ∈ operationHandleRequest [(specId, .ok spec)] specId decodedPath methodVar,
        item.isError = false := by
  have hloader : getLoaderE [(specId, .ok spec)] specId = .ok (.ok spec) := by
    simp [getLoaderE]
  have hmeth : (processRequestedMethods methodVar).isEmpty = false := by
    rcases e : processRequestedMethods methodVar with _ | ⟨a, l⟩
    · rw [e] at hvalid; simp at hvalid
    · rfl
  have hops : getValidatedOperations pi (processRequestedMethods methodVar)
      (normalizeLookupPath decodedPath) =
      .ok ((processRequestedMethods methodVar).filter
        (fun m => (getDeclaredMethods pi).contains m)) := by
    unfold getValidatedOperations
    rw [if_neg]
    simp only [List.isEmpty_eq_true]
    exact hvalid
  have hmain : operationHandleRequest [(specId, .ok spec)] specId decodedPath methodVar =
      ((processRequestedMethods methodVar).filter
        (fun m => (getDeclaredMethods pi).contains m)).map (operationDetailItem decodedPath pi) := by
    unfold operationHandleRequest
    rw [if_neg (by simp [hmeth]), hloader]
    dsimp only
    rw [if_neg (by simp [hv3])]
    unfold getValidatedPathItem
    rw [hfind]
    dsimp only
    rw [hops]
  refine ⟨hmain, ?_⟩
  rw [hmain]
  intro item hitem
  simp only [List.mem_map] at hitem
  obtain ⟨m, -, rfl⟩ := hitem
  rfl

/-- Witness for C1: requesting `get,put` on a path declaring `get` and
`post` yields exactly the one detail item for `get`. -/
theorem c1_operation_partial_validity_witness :
    isOpenAPIV3 ⟨some "3.0.3", some ⟨some "Test API", none, none⟩,
        [("/items", [("get", JsonV.jobj [("summary", JsonV.jstr "Get Item")]),
                     ("post", JsonV.jobj [("summary", JsonV.jstr "Create Item")])])],
        some []⟩ = true
    ∧ (⟨some "3.0.3", some ⟨some "Test API", none, none⟩,
        [("/items", [("get", JsonV.jobj [("summary", JsonV.jstr "Get Item")]),
                     ("post", JsonV.jobj [("summary", JsonV.jstr "Create Item")])])],
        some []⟩ : OpenApiDoc).paths.lookup (normalizeLookupPath "items") =
        some [("get", JsonV.jobj [("summary", JsonV.jstr "Get Item")]),
              ("post", JsonV.jobj [("summary", JsonV.jstr "Create Item")])]
    ∧ (processRequestedMethods ["get", "put"]).filter
        (fun m => (getDeclaredMethods
          [("get", JsonV.jobj [("summary", JsonV.jstr "Get Item")]),
           ("post", JsonV.jobj [("summary", JsonV.jstr "Create Item")])]).contains m) ≠ []
    ∧ (operationHandleRequest
        [("test-api", .ok ⟨some "3.0.3", some ⟨some "Test API", none, none⟩,
          [("/items", [("get", JsonV.jobj [("summary", JsonV.jstr "Get Item")]),
                       ("post", JsonV.jobj [("summary", JsonV.jstr "Create Item")])])],
          some []⟩)] "test-api" "items" ["get", "put"] =
        ((processRequestedMethods ["get", "put"]).filter
          (fun m => (getDeclaredMethods
            [("get", JsonV.jobj [("summary", JsonV.jstr "Get Item")]),
             ("post", JsonV.jobj [("summary", JsonV.jstr "Create Item")])]).contains m)).map
          (operationDetailItem "items"
            [("get", JsonV.jobj [("summary", JsonV.jstr "Get Item")]),
             ("post", JsonV.jobj [("summary", JsonV.jstr "Create Item")])])
      ∧ ∀ item ∈ operationHandleRequest
          [("test-api", .ok ⟨some "3.0.3", some ⟨some "Test API", none, none⟩,
            [("/items", [("get", JsonV.jobj [("summary", JsonV.jstr "Get Item")]),
                         ("post", JsonV.jobj [("summary", JsonV.jstr "Create Item")])])],
            some []⟩)] "test-api" "items" ["get", "put"],
          item.isError = false) :=
  ⟨by decide, rfl, by decide,
    c1_operation_partial_validity _ _ _ _ _ (by decide) rfl (by decide)⟩

/-! ## Component handlers (`src/handlers/component-map-handler.ts`,
`src/handlers/component-detail-handler.ts`)

Each handler returns its result items paired with the number of
`getTransformedSpec` invocations it performed. -/

/-- Modelled from the spec: the fixed component-type allow-list
(`VALID_COMPONENT_TYPES` lives in the missing `rendering/components.ts`;
the members are the spec's §4.4 enumeration). -/
def VALID_COMPONENT_TYPES : List String :=
  ["schemas", "responses", "parameters", "examples", "requestBodies",
   "headers", "securitySchemes", "links", "callbacks"]

/-- The component type keys present in a document. -/
def availableTypesOf (spec : OpenApiDoc) : List String :=
  (spec.components.getD []).map (·.1)

/-- Modelled from the spec: `getValidatedComponentMap` from the missing
`handler-utils.ts` — a valid type absent from the document's `components`
fails listing the available type keys (message pinned by the
component-map-handler tests). -/
def getValidatedComponentMap (spec : OpenApiDoc) (t : String) :
    Except String ComponentMap :=
  match (spec.components.getD []).lookup t with
  | some m => .ok m
  | none => .error ("Component type \"" ++ t ++
      "\" not found in the specification. Available types: " ++
      String.intercalate ", " (availableTypesOf spec))

/-- Modelled from the spec: `RenderableComponentMap.renderList` (source
absent from src/) — an empty map renders a distinct error item, a
non-empty one a name listing (message and error flag pinned by the
tests). -/
def renderComponentMapList (m : ComponentMap) (t suffix : String) :
    List RenderResultItem :=
  if m.isEmpty then
    [⟨suffix, none, true, some ("No components of type \"" ++ t ++ "\" found."), true⟩]
  else
    [⟨suffix, some (.jstr ("Available " ++ t ++ ":\n" ++
        String.intercalate "\n" (m.map (fun p => "- " ++ p.1)))), false, none, true⟩]

/-- `ComponentMapHandler.handleRequest` from
`src/handlers/component-map-handler.ts`: the allow-list check precedes the
loader access; the second component counts `getTransformedSpec` calls. -/
def componentMapHandleRequest (reg : HandlerRegistry) (specId t : String) :
    List RenderResultItem × Nat :=
  let mapSuffix := "components/" ++ t
  if ¬ VALID_COMPONENT_TYPES.contains t then
    (createErrorResult mapSuffix ("Invalid component type: " ++ t), 0)
  else
    match getLoaderE reg specId with
    | .error msg => (createErrorResult mapSuffix msg, 0)
    | .ok loader =>
      match loader with
      | .error msg => (createErrorResult mapSuffix msg, 1)
      | .ok spec =>
        (if ¬ isOpenAPIV3 spec then
          createErrorResult mapSuffix "Only OpenAPI v3 specifications are supported"
         else
          match getValidatedComponentMap spec t with
          | .error msg => createErrorResult mapSuffix msg
          | .ok m => renderComponentMapList m t mapSuffix
        , 1)

/-- Modelled from the spec: `getValidatedComponentDetails` from the
missing `handler-utils.ts` — partition requested names against the map's
keys; zero valid names fails listing the available names in map key order
(message pinned by the e2e tests). -/
def getValidatedComponentDetails (m : ComponentMap) (names : List String)
    (t : String) : Except String (List String) :=
  let valid := names.filter (fun n => (m.lookup n).isSome)
  if valid.isEmpty then
    .error ("None of the requested names (" ++ String.intercalate ", " names ++
      ") are valid for component type \"" ++ t ++ "\". Available names: " ++
      String.intercalate ", " (m.map (·.1)))
  else .ok valid

/-- One detail item per valid component name
(`RenderableComponentMap.renderComponentDetail`, modelled from the spec). -/
def renderComponentDetail (m : ComponentMap) (t : String)
    (validNames : List String) : List RenderResultItem :=
  validNames.map (fun n =>
    ⟨"components/" ++ t ++ "/" ++ n, m.lookup n, false, none, false⟩)

/-- `ComponentDetailHandler.handleRequest` from
`src/handlers/component-detail-handler.ts`: allow-list check, then name
trimming/filtering, then (only then) the document fetch. -/
def componentDetailHandleRequest (reg : HandlerRegistry) (specId t : String)
    (nameVar : Option (List String)) : List RenderResultItem × Nat :=
  let errSuffix :=
    match nameVar with
    | some l => "components/" ++ t ++ "/" ++ String.intercalate "," l
    | none => "components/" ++ t
  if ¬ VALID_COMPONENT_TYPES.contains t then
    (createErrorResult errSuffix ("Invalid component type: " ++ t), 0)
  else
    let names := ((nameVar.getD []).map (fun n => trimJS n)).filter (fun n => n ≠ "")
    if names.isEmpty then
      (createErrorResult errSuffix "No valid component name specified.", 0)
    else
      match getLoaderE reg specId with
      | .error msg => (createErrorResult errSuffix msg, 0)
      | .ok loader =>
        match loader with
        | .error msg => (createErrorResult errSuffix msg, 1)
        | .ok spec =>
          (if ¬ isOpenAPIV3 spec then
            createErrorResult errSuffix "Only OpenAPI v3 specifications are supported"
           else
            match getValidatedComponentMap spec t with
            | .error msg => createErrorResult errSuffix msg
            | .ok m =>
              match getValidatedComponentDetails m names t with
              | .error msg => createErrorResult errSuffix msg
              | .ok valid => renderComponentDetail m t valid
          , 1)

/-! ## Completion Provider (`src/index.ts` — the second document in
`src/utils/glob-expand.ts`) -/

/-- `getSpecComponentTypes` from `src/index.ts`: the keys of the spec's
`components` object (a failed fetch or guard yields `[]`). -/
def getSpecComponentTypes (fetch : Except String OpenApiDoc) : List String :=
  match fetch with
  | .error _ => []
  | .ok spec =>
    if isOpenAPIV3 spec then
      match spec.components with
      | some comps => comps.map (·.1)
      | none => []
    else []

/-- The `type` completion callback from `src/index.ts`: component types of
the first loaded spec, or `[]` when none is loaded. -/
def typeCompletion (reg : HandlerRegistry) : List String :=
  match reg with
  | [] => []
  | (_, fetch) :: _ => getSpecComponentTypes fetch

/-- The `name` completion callback from `src/index.ts`: only when exactly
one spec is loaded and its `components` object has exactly one type key
does it return that type's component names; otherwise `[]`. -/
def nameCompletion (reg : HandlerRegistry) : List String :=
  if reg.length = 1 then
    match reg with
    | (_, .ok spec) :: _ =>
      if isOpenAPIV3 spec then
        match spec.components with
        | some comps =>
          if comps.length = 1 then
            match comps.head? with
            | some (t, _) =>
              match getValidatedComponentMap spec t with
              | .ok m => m.map (·.1)
              | .error _ => []
            | none => []
          else []
        | none => []
      else []
    | _ => []
  else []

/-- A document whose `components` object holds one non-empty category
(`schemas`) and one empty category (`examples`). -/
def emptyCategorySpec : OpenApiDoc :=
  { openapi := some "3.0.3"
  , info := some ⟨some "Cex API", none, none⟩
  , paths := []
  , components := some [("schemas", [("A", JsonV.jobj [])]), ("examples", [])] }

/-! ## Remaining claim theorems -/

/-- C5: for every path item, the declared-method set is the intersection
of its keys with the canonical method set, presented in canonical order
(a sublist of the canonical list), independent of insertion order — keys
inserted as `{post, get}` list as `get, post`. -/
theorem c5_declared_methods_canonical :
    (∀ pi : PathItemObj,
      (∀ m, m ∈ getDeclaredMethods pi ↔ m ∈ CANONICAL_METHODS ∧ (pi.lookup m).isSome)
      ∧ (getDeclaredMethods pi).Sublist CANONICAL_METHODS)
    ∧ getDeclaredMethods [("post", JsonV.jobj []), ("get", JsonV.jobj [])] = ["get", "post"] := by
  refine ⟨fun pi => ⟨fun m => ?_, List.filter_sublist _⟩, rfl⟩
  simp [getDeclaredMethods, List.mem_filter]

/-- C3: a component type outside the allow-list makes both component
handlers fail with the invalid-component-type error without the document
ever being fetched (`getTransformedSpec` invocation count stays 0). -/
theorem c3_invalid_type_short_circuits
    (reg : HandlerRegistry) (specId t : String) (nameVar : Option (List String))
    (h : VALID_COMPONENT_TYPES.contains t = false) :
    componentMapHandleRequest reg specId t =
      (createErrorResult ("components/" ++ t) ("Invalid component type: " ++ t), 0)
    ∧ componentDetailHandleRequest reg specId t nameVar =
      (createErrorResult
        (match nameVar with
          | some l => "components/" ++ t ++ "/" ++ String.intercalate "," l
          | none => "components/" ++ t)
        ("Invalid component type: " ++ t), 0) := by
  constructor
  · unfold componentMapHandleRequest
    rw [if_pos (by simpa using h)]
  · unfold componentDetailHandleRequest
    rw [if_pos (by simpa using h)]

/-- Witness for C3: requesting component type `invalidType` answers with
the invalid-type error and zero document fetches, for both handlers. -/
theorem c3_invalid_type_short_circuits_witness :
    VALID_COMPONENT_TYPES.contains "invalidType" = false
    ∧ (componentMapHandleRequest [] "x" "invalidType" =
        (createErrorResult ("components/" ++ "invalidType")
          ("Invalid component type: " ++ "invalidType"), 0)
      ∧ componentDetailHandleRequest [] "x" "invalidType" none =
        (createErrorResult
          (match (none : Option (List String)) with
            | some l => "components/" ++ "invalidType" ++ "/" ++ String.intercalate "," l
            | none => "components/" ++ "invalidType")
          ("Invalid component type: " ++ "invalidType"), 0)) :=
  ⟨by decide, c3_invalid_type_short_circuits [] "x" "invalidType" none (by decide)⟩

/-- C4: for a valid component type, a document with no `components` key
for it fails with the type-not-found error listing the available type
keys, while a present-but-empty key produces the distinct
no-components-of-type item; the two messages are never equal. -/
theorem c4_missing_vs_empty_component_type
    (specA specB : OpenApiDoc) (sid t : String)
    (hv : VALID_COMPONENT_TYPES.contains t = true)
    (h3A : isOpenAPIV3 specA = true) (h3B : isOpenAPIV3 specB = true)
    (hA : (specA.components.getD []).lookup t = none)
    (hB : (specB.components.getD []).lookup t = some []) :
    componentMapHandleRequest [(sid, .ok specA)] sid t =
      (createErrorResult ("components/" ++ t)
        ("Component type \"" ++ t ++ "\" not found in the specification. Available types: " ++
          String.intercalate ", " (availableTypesOf specA)), 1)
    ∧ componentMapHandleRequest [(sid, .ok specB)] sid t =
      ([⟨"components/" ++ t, none, true,
          some ("No components of type \"" ++ t ++ "\" found."), true⟩], 1)
    ∧ ∀ avail : List String,
        ("Component type \"" ++ t ++ "\" not found in the specification. Available types: " ++
          String.intercalate ", " avail)
        ≠ ("No components of type \"" ++ t ++ "\" found.") := by
  have hloadA : getLoaderE [(sid, Except.ok specA)] sid = .ok (.ok specA) := by
    simp [getLoaderE]
  have hloadB : getLoaderE [(sid, Except.ok specB)] sid = .ok (.ok specB) := by
    simp [getLoaderE]
  refine ⟨?_, ?_, ?_⟩
  · unfold componentMapHandleRequest
    rw [if_neg (by simpa using hv), hloadA]
    dsimp only
    rw [if_neg (by simp [h3A])]
    unfold getValidatedComponentMap
    rw [hA]
  · unfold componentMapHandleRequest
    rw [if_neg (by simpa using hv), hloadB]
    dsimp only
    rw [if_neg (by simp [h3B])]
    unfold getValidatedComponentMap
    rw [hB]
    dsimp only
    rfl
  · intro avail
    refine @string_ne_of_head _ _ 'C' 'N' ?_ ?_ (by decide)
    · rw [string_data_append]; rfl
    · rw [string_data_append]; rfl

/-- Witness for C4: requesting `examples` against a document without that
key versus one with `examples: {}` produces the two distinct messages. -/
theorem c4_missing_vs_empty_component_type_witness :
    VALID_COMPONENT_TYPES.contains "examples" = true
    ∧ isOpenAPIV3 ⟨some "3.0.3", none, [], some [("schemas", [("User", JsonV.jobj [])])]⟩ = true
    ∧ isOpenAPIV3 ⟨some "3.0.3", none, [],
        some [("schemas", [("User", JsonV.jobj [])]), ("examples", [])]⟩ = true
    ∧ ((⟨some "3.0.3", none, [], some [("schemas", [("User", JsonV.jobj [])])]⟩ :
        OpenApiDoc).components.getD []).lookup "examples" = none
    ∧ ((⟨some "3.0.3", none, [],
        some [("schemas", [("User", JsonV.jobj [])]), ("examples", [])]⟩ :
        OpenApiDoc).components.getD []).lookup "examples" = some []
    ∧ (componentMapHandleRequest
        [("test-api", .ok ⟨some "3.0.3", none, [], some [("schemas", [("User", JsonV.jobj [])])]⟩)]
        "test-api" "examples" =
        (createErrorResult ("components/" ++ "examples")
          ("Component type \"" ++ "examples" ++
            "\" not found in the specification. Available types: " ++
            String.intercalate ", " (availableTypesOf
              ⟨some "3.0.3", none, [], some [("schemas", [("User", JsonV.jobj [])])]⟩)), 1)
      ∧ componentMapHandleRequest
          [("test-api", .ok ⟨some "3.0.3", none, [],
            some [("schemas", [("User", JsonV.jobj [])]), ("examples", [])]⟩)]
          "test-api" "examples" =
          ([⟨"components/" ++ "examples", none, true,
              some ("No components of type \"" ++ "examples" ++ "\" found."), true⟩], 1)
      ∧ ∀ avail : List String,
          ("Component type \"" ++ "examples" ++
            "\" not found in the specification. Available types: " ++
            String.intercalate ", " avail)
          ≠ ("No components of type \"" ++ "examples" ++ "\" found.")) :=
  ⟨by decide, by decide, by decide, rfl, rfl,
    c4_missing_vs_empty_component_type _ _ "test-api" "examples"
      (by decide) (by decide) (by decide) rfl rfl⟩

/-- C7 counterexample: a single loaded spec with exactly one non-empty
component category (`schemas`, holding `A`) and one empty category
(`examples`) gets an empty `name` completion sequence, not the names of
the non-empty category as the claim states. -/
theorem c7_name_completion_counterexample :
    ((emptyCategorySpec.components.getD []).filter (fun p => !p.2.isEmpty)).map Prod.fst
      = ["schemas"]
    ∧ (((emptyCategorySpec.components.getD []).lookup "schemas").getD []).map Prod.fst = ["A"]
    ∧ nameCompletion [("cex-api", .ok emptyCategorySpec)] = []
    ∧ ([] : List String) ≠ ["A"] :=
  ⟨rfl, rfl, rfl, by decide⟩

/-- C7 (amended): the `name` completion is non-empty only when exactly one
spec is loaded and its `components` object has exactly one type key
(empty or not), in which case it is every name of that type; with a
different number of loaded specs, or two or more type keys, it is empty. -/
theorem c7_name_completion_single_category
    (slug : String) (spec : OpenApiDoc) (t : String) (m : ComponentMap)
    (h1 : isOpenAPIV3 spec = true) (h2 : spec.components = some [(t, m)])
    (reg2 : HandlerRegistry) (h3 : reg2.length ≠ 1)
    (slug3 : String) (spec3 : OpenApiDoc) (c1 c2 : String × ComponentMap)
    (rest : List (String × ComponentMap)) (h4 : spec3.components = some (c1 :: c2 :: rest)) :
    nameCompletion [(slug, .ok spec)] = m.map Prod.fst
    ∧ nameCompletion reg2 = []
    ∧ nameCompletion [(slug3, .ok spec3)] = [] := by
  refine ⟨?_, ?_, ?_⟩
  · simp [nameCompletion, getValidatedComponentMap, h1, h2]
  · unfold nameCompletion
    rw [if_neg h3]
  · have hlen : (c1 :: c2 :: rest).length ≠ 1 := by simp
    simp [nameCompletion, h4, hlen]

/-- Witness for the amended C7. -/
theorem c7_name_completion_single_category_witness :
    isOpenAPIV3 ⟨some "3.0.3", none, [],
        some [("schemas", [("A", JsonV.jobj []), ("B", JsonV.jobj [])])]⟩ = true
    ∧ (⟨some "3.0.3", none, [],
        some [("schemas", [("A", JsonV.jobj []), ("B", JsonV.jobj [])])]⟩ :
        OpenApiDoc).components = some [("schemas", [("A", JsonV.jobj []), ("B", JsonV.jobj [])])]
    ∧ ([] : HandlerRegistry).length ≠ 1
    ∧ emptyCategorySpec.components =
        some [("schemas", [("A", JsonV.jobj [])]), ("examples", [])]
    ∧ (nameCompletion [("demo", .ok ⟨some "3.0.3", none, [],
          some [("schemas", [("A", JsonV.jobj []), ("B", JsonV.jobj [])])]⟩)] =
        [("A", JsonV.jobj []), ("B", JsonV.jobj [])].map Prod.fst
      ∧ nameCompletion ([] : HandlerRegistry) = []
      ∧ nameCompletion [("cex", .ok emptyCategorySpec)] = []) :=
  ⟨by decide, rfl, by decide, rfl,
    c7_name_completion_single_category "demo" _ "schemas" _ (by decide) rfl
      [] (by decide) "cex" emptyCategorySpec _ _ [] rfl⟩

/-- C8 counterexample: the `type` completion for a spec whose `components`
object holds a non-empty `schemas` and an empty `examples` category is
`[schemas, examples]` — the empty category is not excluded, contrary to
the claim. -/
theorem c8_type_completion_counterexample :
    typeCompletion [("cex-api", .ok emptyCategorySpec)] = ["schemas", "examples"]
    ∧ ((emptyCategorySpec.components.getD []).filter (fun p => !p.2.isEmpty)).map Prod.fst
        = ["schemas"]
    ∧ (["schemas", "examples"] : List String) ≠ ["schemas"] :=
  ⟨rfl, rfl, by decide⟩

/-- C8 (amended): the `type` completion equals the list of type keys
present in the first loaded spec's `components` object, empty categories
included. -/
theorem c8_type_completion_present_keys
    (slug : String) (spec : OpenApiDoc) (comps : ComponentsObj) (rest : HandlerRegistry)
    (h1 : isOpenAPIV3 spec = true) (h2 : spec.components = some comps) :
    typeCompletion ((slug, .ok spec) :: rest) = comps.map Prod.fst := by
  simp [typeCompletion, getSpecComponentTypes, h1, h2]

/-- Witness for the amended C8. -/
theorem c8_type_completion_present_keys_witness :
    isOpenAPIV3 emptyCategorySpec = true
    ∧ emptyCategorySpec.components =
        some [("schemas", [("A", JsonV.jobj [])]), ("examples", [])]
    ∧ typeCompletion [("demo", .ok emptyCategorySpec)] =
        [("schemas", [("A", JsonV.jobj [])]), ("examples", ([] : ComponentMap))].map Prod.fst :=
  ⟨by decide, rfl,
    c8_type_completion_present_keys "demo" emptyCategorySpec _ [] (by decide) rfl⟩

set_option maxRecDepth 4000 in
/-- Witness for C9 at three concrete registry entries. -/
theorem c9_description_truncation_witness :
    200 < (String.mk (List.replicate 201 'a')).length
    ∧ ("short desc" : String) ≠ ""
    ∧ ("short desc" : String).length ≤ 200
    ∧ ("" : String) = ""
    ∧ (("Description: " ++ (String.mk (List.replicate 201 'a')).take 200 ++ "...")
        ∈ specEntryParts ⟨"s1", "T1", String.mk (List.replicate 201 'a'), "", 0⟩
      ∧ ("Description: " ++ "short desc")
        ∈ specEntryParts ⟨"s2", "T2", "short desc", "1.0", 1⟩
      ∧ ∀ l ∈ specEntryParts ⟨"s3", "T3", "", "2.0", 2⟩, ∀ d : String,
          l ≠ "Description: " ++ d) :=
  ⟨by decide, by decide, by decide, rfl,
    c9_description_truncation
      ⟨"s1", "T1", String.mk (List.replicate 201 'a'), "", 0⟩
      ⟨"s2", "T2", "short desc", "1.0", 1⟩
      ⟨"s3", "T3", "", "2.0", 2⟩
      (by decide) (by decide) (by decide) rfl⟩

end OpenApiExplorer
